import Mathlib

/-!
Verification of the kv-explorer terminal application core (kv-explorer.ts).

This file gives a shallow embedding, in Lean 4, of the navigation / action
state machine of the Azure Key Vault explorer TUI: the view-state and
action-mode variables, the secret value cache, the command-bar Enter
handler, the filter Input handler, the list Item-Selected handler and the
back-navigation routine.  Remote store interactions (getSecret, setSecret,
beginDeleteSecret, listing the secrets of a vault) are modelled by an
oracle; successful remote mutations are recorded as an explicit effect
trace so that store-level consequences can be stated.  An exception that
escapes an event handler (an unhandled promise rejection in the source) is
modelled by a Boolean component of the handler result, with the state
mutations executed before the throw retained, exactly as in the source.
-/

namespace KV

/-- Model of the JavaScript `String.prototype.toLowerCase`: lower-case each
character of the string. -/
def jsToLower (s : String) : String := String.mk (s.data.map Char.toLower)

/-- Model of the JavaScript `String.prototype.trim`: drop whitespace from
both ends of the string. -/
def jsTrim (s : String) : String :=
  String.mk (((s.data.dropWhile Char.isWhitespace).reverse.dropWhile Char.isWhitespace).reverse)

/-- A character sequence `pat` occurs contiguously inside `s`. -/
def listContainsSeq (s pat : List Char) : Bool :=
  (List.range (s.length + 1)).any (fun i => (s.drop i).take pat.length == pat)

/-- Model of the JavaScript `String.prototype.includes`: substring
containment (the empty pattern is contained in every string). -/
def strIncludes (s pat : String) : Bool := listContainsSeq s.data pat.data

/-- A vault as used by the explorer: display name and vault URI.  The
discovery-only fields (resource id, location) are not used by any state
transition and are omitted. -/
structure VaultRef where
  name : String
  vaultUri : String
deriving DecidableEq, Repr

/-- Secret metadata as used by the state machine.  Of the SDK metadata only
the name drives transitions; content type and enabled flag appear in the
rendered detail text.  Timestamps and tags are display-only and omitted. -/
structure SecretProperties where
  name : String
  contentType : Option String := none
  enabled : Option Bool := none
deriving DecidableEq, Repr

/-- `ViewState` of the explorer (`type ViewState = "selectVault" |
"listSecrets" | "moveSelectTarget"` in the source). -/
inductive ViewState where
  | selectVault
  | listSecrets
  | moveSelectTarget
deriving DecidableEq, Repr

/-- `FocusTarget` of the explorer (`"list" | "filter" | "command"`). -/
inductive FocusTarget where
  | list
  | filter
  | command
deriving DecidableEq, Repr

/-- `ActionMode` of the explorer (`"none" | "editValue" | "rename" |
"moveTarget" | "moveNewName" | "createName" | "createValue"`). -/
inductive ActionMode where
  | none
  | editValue
  | rename
  | moveTarget
  | moveNewName
  | createName
  | createValue
deriving DecidableEq, Repr

/-- The options currently loaded into the single left-hand list widget:
either vault entries or secret entries. -/
inductive ListOptions where
  | vaults (items : List VaultRef)
  | secrets (items : List SecretProperties)
deriving DecidableEq, Repr

/-- The secret value cache (`const secretCache = new Map<string, string |
null>()`): a JavaScript Map modelled as an association list in which `set`
overwrites the key.  A stored `Option.none` models the JavaScript `null`
(fetch attempted and failed), distinct from `some ""`. -/
abbrev SecretCache : Type := List (String × Option String)

/-- `Map.has`. -/
def cacheHas (c : SecretCache) (k : String) : Bool := c.any (fun e => e.1 == k)

/-- `Map.get` (`Option.none` result models JavaScript `undefined`, a present
key bound to `null` gives `some Option.none`). -/
def cacheGet (c : SecretCache) (k : String) : Option (Option String) :=
  (c.find? (fun e => e.1 == k)).map (fun e => e.2)

/-- `Map.set`: overwrite the binding of `k`. -/
def cacheSet (c : SecretCache) (k : String) (v : Option String) : SecretCache :=
  (k, v) :: c.filter (fun e => !(e.1 == k))

/-- The complete mutable state of the explorer main function: the free
variables of `main()` in the source plus the observable widget state that
the handlers read back (command bar visibility / title / value, filter
text, detail pane text, pane titles, list options, selection index).
`secretClient` holds the vault URI the current client points at
(`Option.none` models a `null` client). -/
structure AppState where
  state : ViewState
  focus : FocusTarget
  allVaults : List VaultRef
  filteredVaults : List VaultRef
  currentVault : Option VaultRef
  secretClient : Option String
  secretCache : SecretCache
  allSecrets : List SecretProperties
  filteredSecrets : List SecretProperties
  atSecretDetail : Bool
  actionMode : ActionMode
  actionSecret : Option SecretProperties
  moveTargetVault : Option VaultRef
  moveSourceSecret : Option SecretProperties
  createNewSecretName : Option String
  commandVisible : Bool
  commandTitle : String
  commandValue : String
  filterText : String
  detailsText : String
  leftTitle : String
  rightTitle : String
  listOptions : ListOptions
  selectedIndex : Nat
deriving DecidableEq, Repr

/-- A remote operation performed (successfully) by a handler, or the
scheduled process exit of `quitClean`. -/
inductive Effect where
  | setSecret (vaultUri name value : String)
  | beginDeleteSecret (vaultUri name : String)
  | quit (code : Nat)
deriving DecidableEq, Repr

/-- The remote secret store as observed through clients: behaviour of
`getSecret` (an `Except.error` models a thrown / rejected call, `Except.ok
Option.none` models a response with an undefined value), whether a
`setSecret` call succeeds, whether a `beginDeleteSecret` call succeeds, and
the metadata listing of a vault.  Both arguments of the call oracles are
the vault URI of the client and the secret name. -/
structure SecretStoreOracle where
  getSecret : String → String → Except Unit (Option String)
  setOk : String → String → Bool
  deleteOk : String → String → Bool
  listSecrets : String → List SecretProperties

/-- The state of the remote stores themselves: vault URI and secret name to
current value. -/
abbrev Store : Type := String → String → Option String

/-- Apply one recorded effect to the remote stores. -/
def applyEffect (s : Store) : Effect → Store
  | Effect.setSecret u n v => fun u' n' => if u' == u && n' == n then some v else s u' n'
  | Effect.beginDeleteSecret u n => fun u' n' => if u' == u && n' == n then Option.none else s u' n'
  | Effect.quit _ => s

/-- Apply a recorded effect trace, oldest first. -/
def applyEffects (s : Store) (l : List Effect) : Store := l.foldl applyEffect s

/-- Modelled from the spec: `SelectElement.setOptions` of the vendored
terminal widget library (not under src/) repopulates the list and, per the
spec, resets the selection index to 0 (the visible/ordinal mapping of items
has changed).  This is `setListOptionsFromVaults` of the source. -/
def setListOptionsFromVaults (st : AppState) (items : List VaultRef) : AppState :=
  { st with listOptions := ListOptions.vaults items, selectedIndex := 0 }

/-- Modelled from the spec: same widget behaviour as
`setListOptionsFromVaults`, for secret entries
(`setListOptionsFromSecrets` of the source). -/
def setListOptionsFromSecrets (st : AppState) (items : List SecretProperties) : AppState :=
  { st with listOptions := ListOptions.secrets items, selectedIndex := 0 }

/-- `focusList()` of the source (the widget blur / focus calls have no
further observable state). -/
def focusList (st : AppState) : AppState := { st with focus := FocusTarget.list }

/-- `focusFilter()` of the source. -/
def focusFilter (st : AppState) : AppState := { st with focus := FocusTarget.filter }

/-- `openCommandBar()` of the source. -/
def openCommandBar (st : AppState) : AppState :=
  { st with focus := FocusTarget.command, commandTitle := "Command",
            commandValue := "", commandVisible := true }

/-- `closeCommandBar()` of the source: hide the bar; only in the
`selectVault` and `listSecrets` view states is focus handed back to the
filter or the list (in `moveSelectTarget` the `focus` variable is left as
it is). -/
def closeCommandBar (st : AppState) : AppState :=
  let st := { st with commandVisible := false }
  if st.state = ViewState.selectVault ∨ st.state = ViewState.listSecrets then
    if st.focus = FocusTarget.filter then focusFilter st else focusList st
  else st

/-- The filter expression of the Input handler for vaults:
`allVaults.filter((v) => v.name.toLowerCase().includes(val.toLowerCase()))`. -/
def filterVaultsByQuery (val : String) (l : List VaultRef) : List VaultRef :=
  l.filter (fun v => strIncludes (jsToLower v.name) (jsToLower val))

/-- The filter expression of the Input handler for secrets:
`allSecrets.filter((s) => s.name.toLowerCase().includes(val.toLowerCase()))`. -/
def filterSecretsByQuery (val : String) (l : List SecretProperties) : List SecretProperties :=
  l.filter (fun s => strIncludes (jsToLower s.name) (jsToLower val))

/-- The `filter` Input handler of the source: recompute the filtered
projection of the collection appropriate to the current view state and
repopulate the list from it.  The `filterText` field records the widget
value that fired the event. -/
def filterInput (st : AppState) (val : String) : AppState :=
  let st := { st with filterText := val }
  match st.state with
  | ViewState.selectVault =>
      let fv := filterVaultsByQuery val st.allVaults
      setListOptionsFromVaults { st with filteredVaults := fv } fv
  | ViewState.listSecrets =>
      let fs := filterSecretsByQuery val st.allSecrets
      setListOptionsFromSecrets { st with filteredSecrets := fs } fs
  | ViewState.moveSelectTarget =>
      let fv := filterVaultsByQuery val st.allVaults
      setListOptionsFromVaults { st with filteredVaults := fv } fv

/-- `selectVaultAndLoadSecrets(vault)` of the source: switch to the vault,
create a client for it, load its secret metadata, repopulate the list and
reset the detail pane.  Note: the secret value cache is not touched.  The
remote listing is modelled as total (listing failures are outside the
verified claims). -/
def selectVaultAndLoadSecrets (o : SecretStoreOracle) (st : AppState) (vault : VaultRef) :
    AppState :=
  let st := { st with currentVault := some vault,
                      leftTitle := "Secrets • " ++ vault.name,
                      filterText := "" }
  let st := focusList st
  let st := { st with state := ViewState.listSecrets,
                      detailsText := "Loading secrets...",
                      secretClient := some vault.vaultUri }
  let secrets := o.listSecrets vault.vaultUri
  let st := { st with allSecrets := secrets, filteredSecrets := secrets }
  let st := setListOptionsFromSecrets st secrets
  { st with selectedIndex := 0,
            detailsText := "Select a secret to view details. Press Enter on a secret to load its value.",
            atSecretDetail := false }

/-- The detail pane text built by `loadAndShowSecret`.  The JSON
pretty-printing branch and the timestamp / tag metadata lines are
display-only and not modelled; the value marker distinguishes a `null`
value (failed fetch) from an empty string exactly as the source does. -/
def renderSecretDetails (sp : SecretProperties) (value : Option String) : String :=
  let metaLines :=
    ["Name: " ++ sp.name] ++
    (match sp.contentType with
     | some ct => ["Content Type: " ++ ct]
     | Option.none => []) ++
    (match sp.enabled with
     | some b => ["Enabled: " ++ (if b then "Yes" else "No")]
     | Option.none => [])
  let valText :=
    match value with
    | Option.none => "(no value or access denied)"
    | some v => if v == "" then "(empty)" else v
  String.intercalate "\n" (metaLines ++ ["", "Value:", valText])

/-- `loadAndShowSecret(sp)` of the source: on a `null` client return
unchanged; fetch the value through the cache (a thrown fetch is caught and
cached as `null`), then render the detail pane and set the detail flag. -/
def loadAndShowSecret (o : SecretStoreOracle) (st : AppState) (sp : SecretProperties) :
    AppState :=
  match st.secretClient with
  | Option.none => st
  | some uri =>
      let st1 :=
        if cacheHas st.secretCache sp.name then st
        else
          let st' := { st with detailsText := "Fetching secret value..." }
          match o.getSecret uri sp.name with
          | Except.ok v => { st' with secretCache := cacheSet st'.secretCache sp.name v }
          | Except.error _ => { st' with secretCache := cacheSet st'.secretCache sp.name Option.none }
      let value := (cacheGet st1.secretCache sp.name).getD Option.none
      { st1 with detailsText := renderSecretDetails sp value,
                 rightTitle := "Details • " ++ sp.name,
                 atSecretDetail := true }

/-- `getSecretValue(sp)` of the source: on a `null` client return `null`
without caching; otherwise get-or-fetch through the cache (a thrown fetch
is caught and cached as `null`).  The third component instruments the
number of remote `getSecret` invocations the call performed (0 or 1). -/
def getSecretValue (o : SecretStoreOracle) (st : AppState) (sp : SecretProperties) :
    Option String × AppState × Nat :=
  match st.secretClient with
  | Option.none => (Option.none, st, 0)
  | some uri =>
      if cacheHas st.secretCache sp.name then
        ((cacheGet st.secretCache sp.name).getD Option.none, st, 0)
      else
        let newCache :=
          match o.getSecret uri sp.name with
          | Except.ok v => cacheSet st.secretCache sp.name v
          | Except.error _ => cacheSet st.secretCache sp.name Option.none
        ((cacheGet newCache sp.name).getD Option.none, { st with secretCache := newCache }, 1)

/-- `setSecretValue(name, value)` of the source: a no-op on a `null`
client; otherwise issue the remote set (an `Except.error` result models the
rejected call escaping, with no state change and no recorded effect) and on
success also store the value in the cache. -/
def setSecretValue (o : SecretStoreOracle) (st : AppState) (name value : String) :
    Except Unit (AppState × List Effect) :=
  match st.secretClient with
  | Option.none => Except.ok (st, [])
  | some uri =>
      if o.setOk uri name then
        Except.ok ({ st with secretCache := cacheSet st.secretCache name (some value) },
                   [Effect.setSecret uri name value])
      else Except.error ()

/-- `goBackOneLayer()` of the source, in its exact branch order: unwind
`moveNewName` to `moveTarget` first; else clear the secret detail flag;
else leave `moveSelectTarget` for `listSecrets`; else leave `listSecrets`
for `selectVault` (clearing the current vault, client and secret
collections — note that the secret value cache is not cleared). -/
def goBackOneLayer (st : AppState) : AppState :=
  if st.actionMode = ActionMode.moveNewName then
    let st := { st with actionMode := ActionMode.moveTarget,
                        commandVisible := false,
                        state := ViewState.moveSelectTarget,
                        leftTitle := "Target Vault" }
    focusList (setListOptionsFromVaults st st.filteredVaults)
  else if st.atSecretDetail then
    { st with atSecretDetail := false,
              detailsText := "Select a secret to view details. Press Enter on a secret to load its value.",
              rightTitle := "Details" }
  else if st.state = ViewState.moveSelectTarget then
    let st := { st with state := ViewState.listSecrets,
                        leftTitle := "Secrets • " ++ ((st.currentVault.map VaultRef.name).getD "") }
    let st := setListOptionsFromSecrets st st.filteredSecrets
    focusList { st with selectedIndex := 0 }
  else if st.state = ViewState.listSecrets then
    let st := { st with state := ViewState.selectVault,
                        currentVault := Option.none,
                        secretClient := Option.none,
                        allSecrets := [],
                        filteredSecrets := [],
                        detailsText := "",
                        leftTitle := "Vaults" }
    let st := setListOptionsFromVaults st st.filteredVaults
    focusList { st with selectedIndex := 0, rightTitle := "Details" }
  else st

/-- The shared tail of the command-bar Enter handler (reached by every
branch that does not return early): reset the action mode and its secret
payload, then close the command bar. -/
def modeResetTail (st : AppState) : AppState :=
  closeCommandBar { st with actionMode := ActionMode.none, actionSecret := Option.none }

/-- The result of one run of an event handler: the state when the handler
finished or threw, the successful remote mutations and scheduled exits it
performed, and whether an exception escaped the handler uncaught (an
unhandled promise rejection in the source). -/
abbrev HandlerResult : Type := AppState × List Effect × Bool

/-- The `editValue` branch of the command-bar Enter handler: write the
submitted text as the new value (the remote set is not guarded by any try /
catch, so a rejected call escapes), then re-render the detail. -/
def editValueBranch (o : SecretStoreOracle) (st : AppState) (sp : SecretProperties)
    (cmd : String) : HandlerResult :=
  match setSecretValue o st sp.name cmd with
  | Except.error _ => (st, [], true)
  | Except.ok (st1, effs) =>
      let st2 := { st1 with detailsText := "Secret updated." }
      (modeResetTail (loadAndShowSecret o st2 sp), effs, false)

/-- The `rename` branch of the command-bar Enter handler: on a non-empty
new name different from the current one, fetch the current value through
the cache (`?? ""` coerces a `null` to the empty string), set the new name
directly on the client (unguarded — a rejected call escapes), attempt the
delete of the old name inside try / catch (failure swallowed, no effect
recorded), and reload the vault. -/
def renameBranch (o : SecretStoreOracle) (st : AppState) (sp : SecretProperties)
    (cmd : String) : HandlerResult :=
  let newName := jsTrim cmd
  if newName ≠ "" ∧ newName ≠ sp.name then
    let r := getSecretValue o st sp
    let currentValue := r.1.getD ""
    let st1 := r.2.1
    match st1.secretClient with
    | Option.none => (st1, [], true)
    | some uri =>
        if o.setOk uri newName then
          let effs :=
            [Effect.setSecret uri newName currentValue] ++
            (if o.deleteOk uri sp.name then [Effect.beginDeleteSecret uri sp.name] else [])
          let st2 := { st1 with detailsText := "Renamed to " ++ newName ++ "." }
          match st2.currentVault with
          | Option.none => (st2, effs, true)
          | some cv => (modeResetTail (selectVaultAndLoadSecrets o st2 cv), effs, false)
        else (st1, [], true)
  else (modeResetTail st, [], false)

/-- The `moveTarget` branch of the command-bar Enter handler: match the
submitted text case-insensitively against the known vault names.  On a
match, advance to `moveNewName` with the prompt pre-filled and return early
(skipping the shared mode reset).  On no match, report "Vault not found"
in the detail pane — and then fall through to the shared mode reset. -/
def moveTargetBranch (st : AppState) (sp : SecretProperties) (cmd : String) : HandlerResult :=
  let targetName := jsToLower (jsTrim cmd)
  match st.allVaults.find? (fun v => jsToLower v.name == targetName) with
  | some tv =>
      ({ st with moveTargetVault := some tv,
                 actionMode := ActionMode.moveNewName,
                 commandTitle := "Move • New name for " ++ sp.name ++ " @ " ++ tv.name,
                 commandValue := sp.name,
                 commandVisible := true }, [], false)
  | Option.none =>
      (modeResetTail { st with detailsText := "Vault not found: " ++ cmd }, [], false)

/-- The `moveNewName` branch of the command-bar Enter handler: fetch the
source value through the cache (`?? ""` coerces a `null`), open a client
for the target vault and set the secret there under the new name (the old
name when the trimmed input is empty; the call is unguarded, so a rejected
set escapes).  The source vault is never deleted from.  Then reload the
current vault. -/
def moveNewNameBranch (o : SecretStoreOracle) (st : AppState) (sp : SecretProperties)
    (tv : VaultRef) (cmd : String) : HandlerResult :=
  let newName := jsTrim cmd
  let r := getSecretValue o st sp
  let value := r.1.getD ""
  let st1 := r.2.1
  let finalName := if newName == "" then sp.name else newName
  if o.setOk tv.vaultUri finalName then
    let effs := [Effect.setSecret tv.vaultUri finalName value]
    let st2 := { st1 with
      detailsText := "Copied to vault " ++ tv.name ++ " as " ++ finalName ++ "." }
    match st2.currentVault with
    | Option.none => (st2, effs, true)
    | some cv => (modeResetTail (selectVaultAndLoadSecrets o st2 cv), effs, false)
  else (st1, [], true)

/-- The `createName` branch of the command-bar Enter handler: an empty
trimmed name is reported and falls through to the shared mode reset; a
non-empty name is held as payload and the handler advances to
`createValue`, returning early. -/
def createNameBranch (st : AppState) (cmd : String) : HandlerResult :=
  let name := jsTrim cmd
  if name == "" then
    (modeResetTail { st with detailsText := "Name cannot be empty." }, [], false)
  else
    ({ st with createNewSecretName := some name,
               actionMode := ActionMode.createValue,
               commandTitle := "Create • value for " ++ name,
               commandValue := "",
               commandVisible := true }, [], false)

/-- The `createValue` branch of the command-bar Enter handler: set the new
secret directly on the client (unguarded — a rejected call escapes), seed
the cache, reload the vault, and auto-select and open the created entry
when it appears in the filtered list. -/
def createValueBranch (o : SecretStoreOracle) (st : AppState) (nm : String)
    (cmd : String) : HandlerResult :=
  match st.secretClient with
  | Option.none => (st, [], true)
  | some uri =>
      if o.setOk uri nm then
        let effs := [Effect.setSecret uri nm cmd]
        let st1 := { st with secretCache := cacheSet st.secretCache nm (some cmd),
                             detailsText := "Created secret " ++ nm ++ ".",
                             createNewSecretName := Option.none }
        match st1.currentVault with
        | Option.none => (st1, effs, true)
        | some cv =>
            let st2 := selectVaultAndLoadSecrets o st1 cv
            match st2.filteredSecrets.findIdx? (fun s => s.name == nm),
                  st2.filteredSecrets.find? (fun s => s.name == nm) with
            | some idx, some sp =>
                let st3 := loadAndShowSecret o { st2 with selectedIndex := idx } sp
                (modeResetTail st3, effs, false)
            | _, _ => (modeResetTail st2, effs, false)
      else (st, [], true)

/-- The bare-command branch of the command-bar Enter handler: a trimmed
`q` or `quit` calls `quitClean(0)` (which schedules the process exit and
returns); every submission then reaches the shared mode reset. -/
def bareCommandBranch (st : AppState) (cmd : String) : HandlerResult :=
  let trimmed := jsTrim cmd
  let effs := if trimmed == "q" || trimmed == "quit" then [Effect.quit 0] else []
  (modeResetTail st, effs, false)

/-- The command-bar Enter handler of the source, dispatching on the action
mode and the presence of its payload exactly as the if / else-if chain of
the source does; any combination that matches no guarded branch falls to
the bare-command branch. -/
def commandBarEnter (o : SecretStoreOracle) (st : AppState) (cmd : String) : HandlerResult :=
  match st.actionMode with
  | ActionMode.editValue =>
      match st.actionSecret with
      | some sp => editValueBranch o st sp cmd
      | Option.none => bareCommandBranch st cmd
  | ActionMode.rename =>
      match st.actionSecret with
      | some sp => renameBranch o st sp cmd
      | Option.none => bareCommandBranch st cmd
  | ActionMode.moveTarget =>
      match st.actionSecret with
      | some sp => moveTargetBranch st sp cmd
      | Option.none => bareCommandBranch st cmd
  | ActionMode.moveNewName =>
      match st.actionSecret, st.moveTargetVault with
      | some sp, some tv => moveNewNameBranch o st sp tv cmd
      | _, _ => bareCommandBranch st cmd
  | ActionMode.createName => createNameBranch st cmd
  | ActionMode.createValue =>
      match st.createNewSecretName with
      | some nm => createValueBranch o st nm cmd
      | Option.none => bareCommandBranch st cmd
  | ActionMode.none => bareCommandBranch st cmd

/-- The option of the list widget currently selected, read back as the
vault or secret it carries. -/
def selectedVault (st : AppState) : Option VaultRef :=
  match st.listOptions with
  | ListOptions.vaults l => l.get? st.selectedIndex
  | ListOptions.secrets _ => Option.none

/-- The selected option of the list when it holds secret entries. -/
def selectedSecret (st : AppState) : Option SecretProperties :=
  match st.listOptions with
  | ListOptions.secrets l => l.get? st.selectedIndex
  | ListOptions.vaults _ => Option.none

/-- The list Item-Selected handler of the source: guarded on a present
selection and list focus; in `selectVault` it enters the vault, in
`listSecrets` it loads and shows the secret, in `moveSelectTarget` it takes
the selected vault as move target and advances to `moveNewName` with the
prompt pre-filled from the move source secret. -/
def listItemSelected (o : SecretStoreOracle) (st : AppState) : AppState :=
  if st.focus ≠ FocusTarget.list then st
  else
    match st.state with
    | ViewState.selectVault =>
        match selectedVault st with
        | some v => focusList (selectVaultAndLoadSecrets o st v)
        | Option.none => st
    | ViewState.listSecrets =>
        match selectedSecret st with
        | some sp => focusList (loadAndShowSecret o st sp)
        | Option.none => st
    | ViewState.moveSelectTarget =>
        match selectedVault st with
        | some tv =>
            { st with moveTargetVault := some tv,
                      actionMode := ActionMode.moveNewName,
                      commandTitle := "Move • New name for " ++
                        ((st.moveSourceSecret.map SecretProperties.name).getD "") ++
                        " @ " ++ tv.name,
                      commandValue := (st.moveSourceSecret.map SecretProperties.name).getD "",
                      commandVisible := true }
        | Option.none => st

/-- The `m` key handler of the source (guarded on the `listSecrets` view,
list focus, the detail flag and a selected secret): enter the move
workflow, repopulating the left list with all vaults. -/
def keyPressM (st : AppState) : AppState :=
  if st.state = ViewState.listSecrets ∧ st.focus = FocusTarget.list ∧ st.atSecretDetail then
    match selectedSecret st with
    | some sp =>
        let st := { st with actionMode := ActionMode.moveTarget,
                            actionSecret := some sp,
                            moveSourceSecret := some sp,
                            moveTargetVault := Option.none,
                            state := ViewState.moveSelectTarget,
                            leftTitle := "Target Vault",
                            filterText := "",
                            filteredVaults := st.allVaults }
        let st := setListOptionsFromVaults st st.filteredVaults
        focusList { st with selectedIndex := 0,
                            detailsText := "Select target vault for " ++ sp.name,
                            rightTitle := "Move • " ++ sp.name }
    | Option.none => st
  else st

/-- The `Tab` key handler of the source: toggle between filter focus and
list focus. -/
def keyPressTab (st : AppState) : AppState :=
  if st.focus = FocusTarget.filter then focusList st else focusFilter st

/-! Concrete fixtures used to evaluate the embedded handlers on explicit
inputs. -/

/-- A first concrete vault. -/
def vaultAlpha : VaultRef := { name := "alpha", vaultUri := "https://alpha.vault" }

/-- A second concrete vault. -/
def vaultBravo : VaultRef := { name := "bravo", vaultUri := "https://bravo.vault" }

/-- A concrete secret named `s`, present in both concrete vaults. -/
def secretS : SecretProperties := { name := "s" }

/-- A concrete oracle: both vaults list the secret `s`; its value is `vA`
in vault alpha and `vB` in vault bravo; all mutations succeed. -/
def oracleAB : SecretStoreOracle where
  getSecret := fun u n =>
    if u == "https://alpha.vault" && n == "s" then Except.ok (some "vA")
    else if u == "https://bravo.vault" && n == "s" then Except.ok (some "vB")
    else Except.error ()
  setOk := fun _ _ => true
  deleteOk := fun _ _ => true
  listSecrets := fun _ => [{ name := "s" }]

/-- A concrete oracle on the same data whose remote mutations all fail
(every `setSecret` / `beginDeleteSecret` call rejects). -/
def oracleFail : SecretStoreOracle where
  getSecret := oracleAB.getSecret
  setOk := fun _ _ => false
  deleteOk := fun _ _ => false
  listSecrets := oracleAB.listSecrets

/-- The state after the initial vault discovery of `main()`: vault
selection view, both concrete vaults listed, nothing cached, no action
mode. -/
def initState : AppState where
  state := ViewState.selectVault
  focus := FocusTarget.list
  allVaults := [vaultAlpha, vaultBravo]
  filteredVaults := [vaultAlpha, vaultBravo]
  currentVault := Option.none
  secretClient := Option.none
  secretCache := []
  allSecrets := []
  filteredSecrets := []
  atSecretDetail := false
  actionMode := ActionMode.none
  actionSecret := Option.none
  moveTargetVault := Option.none
  moveSourceSecret := Option.none
  createNewSecretName := Option.none
  commandVisible := false
  commandTitle := "Command"
  commandValue := ""
  filterText := ""
  detailsText := "Select a Key Vault on the left, then browse secrets. Use filter to narrow results."
  leftTitle := "Vaults"
  rightTitle := "Details"
  listOptions := ListOptions.vaults [vaultAlpha, vaultBravo]
  selectedIndex := 0

/-- A concrete session state inside vault alpha, looking at the detail
view of the secret `s` whose value `v` is already cached. -/
def detailStateAlpha : AppState :=
  { initState with
      state := ViewState.listSecrets
      currentVault := some vaultAlpha
      secretClient := some vaultAlpha.vaultUri
      secretCache := [("s", some "v")]
      allSecrets := [secretS]
      filteredSecrets := [secretS]
      listOptions := ListOptions.secrets [secretS]
      atSecretDetail := true
      leftTitle := "Secrets • alpha"
      rightTitle := "Details • s" }

/-- The detail state with the edit-value prompt open on `s`. -/
def editPromptState : AppState :=
  { detailStateAlpha with
      actionMode := ActionMode.editValue
      actionSecret := some secretS
      commandVisible := true
      focus := FocusTarget.command }

/-- The detail state with the rename prompt open on `s`. -/
def renamePromptState : AppState :=
  { editPromptState with actionMode := ActionMode.rename }

/-- The move workflow awaiting the target-vault name by prompt. -/
def moveTargetPromptState : AppState :=
  { editPromptState with
      state := ViewState.moveSelectTarget
      actionMode := ActionMode.moveTarget
      moveSourceSecret := some secretS
      listOptions := ListOptions.vaults [vaultAlpha, vaultBravo] }

/-- The move workflow awaiting the new name, target vault bravo chosen. -/
def movePromptState : AppState :=
  { editPromptState with
      actionMode := ActionMode.moveNewName
      moveTargetVault := some vaultBravo }

/-- The create workflow awaiting the value of the new secret `c`. -/
def createPromptState : AppState :=
  { detailStateAlpha with
      actionMode := ActionMode.createValue
      createNewSecretName := some "c"
      commandVisible := true
      focus := FocusTarget.command }

/-- The rename prompt state when the earlier fetch of `s` failed (the
cache holds `null` for it). -/
def renamePromptStateNullCached : AppState :=
  { renamePromptState with secretCache := [("s", Option.none)] }

/-- The move new-name prompt state when the earlier fetch of `s` failed
(the cache holds `null` for it). -/
def movePromptStateNullCached : AppState :=
  { movePromptState with secretCache := [("s", Option.none)] }

/-- The `moveNewName` prompt state as actually reached through the
embedded handlers: press `m` in the detail view, then select vault alpha
from the target list. -/
def moveNewNamePromptState : AppState :=
  listItemSelected oracleAB (keyPressM detailStateAlpha)

/-- The state reached by: press `m` in the detail view, open the command
bar, submit a vault name that matches nothing, Tab twice to regain list
focus, and select a vault from the list.  The failed lookup has cleared
`actionSecret`, yet the selection has set the action mode back to
`moveNewName`. -/
def quitTrapState : AppState :=
  listItemSelected oracleAB (keyPressTab (keyPressTab
    ((commandBarEnter oracleAB (openCommandBar (keyPressM detailStateAlpha)) "charlie").1)))

/-- Whether an effect is a remote delete. -/
def isDeleteEffect : Effect → Bool
  | Effect.beginDeleteSecret _ _ => true
  | _ => false

/-- Whether an effect is a scheduled process exit. -/
def isQuitEffect : Effect → Bool
  | Effect.quit _ => true
  | _ => false

/-- The payload the guarded branch of the Enter handler for the given
action mode requires: the branch for a mode runs only when the payload it
reads is present, otherwise the submission falls to the bare-command
branch. -/
def actionPayloadPresent (st : AppState) : Bool :=
  match st.actionMode with
  | ActionMode.none => false
  | ActionMode.editValue => st.actionSecret.isSome
  | ActionMode.rename => st.actionSecret.isSome
  | ActionMode.moveTarget => st.actionSecret.isSome
  | ActionMode.moveNewName => st.actionSecret.isSome && st.moveTargetVault.isSome
  | ActionMode.createName => true
  | ActionMode.createValue => st.createNewSecretName.isSome

/-! Helper lemmas about the cache and the handlers. -/

/-- `getSecretValue` changes at most the cache of the state it returns. -/
lemma getSecretValue_preserves (o : SecretStoreOracle) (st : AppState)
    (sp : SecretProperties) :
    ((getSecretValue o st sp).2.1).currentVault = st.currentVault ∧
    ((getSecretValue o st sp).2.1).secretClient = st.secretClient := by
  unfold getSecretValue
  rcases h : st.secretClient with _ | uri <;> simp [h]
  split <;> simp [h]

/-- A key just written is present. -/
lemma cacheHas_cacheSet (c : SecretCache) (k : String) (v : Option String) :
    cacheHas (cacheSet c k v) k = true := by
  simp [cacheHas, cacheSet]

/-- A key just written reads back as the written value. -/
lemma cacheGet_cacheSet (c : SecretCache) (k : String) (v : Option String) :
    cacheGet (cacheSet c k v) k = some v := by
  simp [cacheGet, cacheSet]

/-- A key whose lookup succeeds is present. -/
lemma cacheHas_true_of_get (c : SecretCache) (k : String) (x : Option String)
    (h : cacheGet c k = some x) : cacheHas c k = true := by
  induction c with
  | nil => simp [cacheGet] at h
  | cons e t ih =>
      by_cases he : (e.1 == k) = true
      · simp [cacheHas, he]
      · simp only [cacheGet, List.find?_cons, he] at h
        simp only [cacheHas, List.any_cons, he, Bool.false_or]
        exact ih h

/-- With a client present and the name already cached, `getSecretValue`
returns the cached entry without touching the state or the store. -/
lemma getSecretValue_cached (o : SecretStoreOracle) (st : AppState) (sp : SecretProperties)
    (uri : String) (x : Option String)
    (hc : st.secretClient = some uri)
    (h : cacheGet st.secretCache sp.name = some x) :
    getSecretValue o st sp = (x, st, 0) := by
  unfold getSecretValue
  rw [hc, cacheHas_true_of_get _ _ _ h]
  simp [h]

/-- The empty pattern is contained in every string. -/
lemma strIncludes_empty (s : String) : strIncludes s "" = true := by
  simp [strIncludes, listContainsSeq, List.any_eq_true]
  exact ⟨0, by simp⟩

/-- `closeCommandBar` changes only the bar visibility and the focus. -/
lemma closeCommandBar_fields (st : AppState) :
    (closeCommandBar st).actionMode = st.actionMode ∧
    (closeCommandBar st).actionSecret = st.actionSecret ∧
    (closeCommandBar st).commandVisible = false := by
  unfold closeCommandBar focusFilter focusList
  by_cases h1 : st.state = ViewState.selectVault ∨ st.state = ViewState.listSecrets <;>
    by_cases h2 : st.focus = FocusTarget.filter <;>
      simp [h1, h2]

/-! Claim theorems. -/

/-- C1.  The claim states that the secret-value cache is cleared on every
change of the active vault, so that no get can return a value fetched
while a different vault was active.  The code never clears the cache:
neither `selectVaultAndLoadSecrets` nor any branch of `goBackOneLayer`
touches `secretCache`.  This theorem evaluates the embedded handlers on
the failing trace: select vault alpha, open secret `s` (its value `vA` is
fetched and cached), navigate back twice to the vault list, select vault
bravo — the cache still holds the alpha entry, and `getSecretValue` for
`s` returns the stale `vA` without any remote fetch, although the store
value of `s` in vault bravo is `vB`. -/
theorem c1_cache_not_cleared_on_vault_switch :
    (goBackOneLayer (goBackOneLayer
        (listItemSelected oracleAB (listItemSelected oracleAB initState)))).state =
      ViewState.selectVault ∧
    (listItemSelected oracleAB
        { goBackOneLayer (goBackOneLayer
            (listItemSelected oracleAB (listItemSelected oracleAB initState))) with
          selectedIndex := 1 }).currentVault = some vaultBravo ∧
    (listItemSelected oracleAB
        { goBackOneLayer (goBackOneLayer
            (listItemSelected oracleAB (listItemSelected oracleAB initState))) with
          selectedIndex := 1 }).secretCache = [("s", some "vA")] ∧
    (getSecretValue oracleAB
        (listItemSelected oracleAB
          { goBackOneLayer (goBackOneLayer
              (listItemSelected oracleAB (listItemSelected oracleAB initState))) with
            selectedIndex := 1 }) secretS).1 = some "vA" ∧
    (getSecretValue oracleAB
        (listItemSelected oracleAB
          { goBackOneLayer (goBackOneLayer
              (listItemSelected oracleAB (listItemSelected oracleAB initState))) with
            selectedIndex := 1 }) secretS).2.2 = 0 ∧
    oracleAB.getSecret vaultBravo.vaultUri secretS.name = Except.ok (some "vB") := by
  refine ⟨by decide, by decide, by decide, by decide, by decide, rfl⟩

/-- C2.  The claim states that a failing remote set/delete during any
prompt-submit workflow is caught, reported inline, and that the action
mode still resets to `None`.  The source wraps none of the mutation
awaits of the Enter handler in try/catch, so the rejection escapes the
handler uncaught.  This theorem evaluates the embedded handler at a
failing store for all four workflows (edit, rename, move, create): each
run ends with the exception escaping (`true` in the last component), the
state returned exactly as it was — the action mode still the active one,
nothing reported in the detail pane — and no effect performed. -/
theorem c2_mutation_failure_escapes_handler :
    (editPromptState.actionMode = ActionMode.editValue ∧
       commandBarEnter oracleFail editPromptState "newv" = (editPromptState, [], true)) ∧
    (renamePromptState.actionMode = ActionMode.rename ∧
       commandBarEnter oracleFail renamePromptState "s2" = (renamePromptState, [], true)) ∧
    (movePromptState.actionMode = ActionMode.moveNewName ∧
       commandBarEnter oracleFail movePromptState "n2" = (movePromptState, [], true)) ∧
    (createPromptState.actionMode = ActionMode.createValue ∧
       commandBarEnter oracleFail createPromptState "val" = (createPromptState, [], true)) := by
  refine ⟨⟨by decide, by decide⟩, ⟨by decide, by decide⟩,
          ⟨by decide, by decide⟩, ⟨by decide, by decide⟩⟩

/-- C3.  The claim states that a move-target prompt submission matching
no vault name reports "Vault not found" and leaves the workflow in action
mode `MoveTarget` with its secret payload intact.  The code does report
the message, but the unmatched branch then falls through to the shared
mode reset: evaluating the embedded handler at a state holding vaults
alpha and bravo with the unmatched input `charlie` shows the action mode
reset to `none`, the secret payload cleared and the command bar closed
(no exception involved), so a prompt retry is handled as a bare command. -/
theorem c3_vault_not_found_resets_mode :
    (commandBarEnter oracleAB moveTargetPromptState "charlie").1.detailsText =
      "Vault not found: charlie" ∧
    (commandBarEnter oracleAB moveTargetPromptState "charlie").1.actionMode =
      ActionMode.none ∧
    (commandBarEnter oracleAB moveTargetPromptState "charlie").1.actionSecret =
      Option.none ∧
    (commandBarEnter oracleAB moveTargetPromptState "charlie").1.commandVisible = false ∧
    (commandBarEnter oracleAB moveTargetPromptState "charlie").2.2 = false := by
  refine ⟨by decide, by decide, by decide, by decide, by decide⟩

/-- C4, counterexample.  The claim states that from `MoveNewName`
(entered from a secret detail view) a second back-navigation step reaches
`ListSecrets` with the detail flag off.  At the concrete `moveNewName`
state reached through the embedded handlers (press `m` in the detail
view, then select the target vault), the detail flag is still set, so the
second back-step is consumed by the detail-flag branch of
`goBackOneLayer` and the view state remains `MoveSelectTarget`, not
`ListSecrets`. -/
theorem c4_counterexample_second_back_stays_in_move_select :
    moveNewNamePromptState.actionMode = ActionMode.moveNewName ∧
    moveNewNamePromptState.atSecretDetail = true ∧
    (goBackOneLayer (goBackOneLayer moveNewNamePromptState)).state ≠
      ViewState.listSecrets := by
  refine ⟨by decide, by decide, by decide⟩

/-- C4, amended.  Starting from action mode `MoveNewName` entered from a
secret detail view (detail flag set): one back-navigation step returns to
`MoveTarget` with the vault list repopulated from the filtered vaults and
the secret collections untouched; the second back-step only clears the
detail flag while the view state remains `MoveSelectTarget`; a third
back-step returns to view state `ListSecrets` with the detail flag off. -/
theorem c4_back_navigation_amended (st : AppState)
    (hm : st.actionMode = ActionMode.moveNewName)
    (hd : st.atSecretDetail = true) :
    ((goBackOneLayer st).actionMode = ActionMode.moveTarget ∧
     (goBackOneLayer st).state = ViewState.moveSelectTarget ∧
     (goBackOneLayer st).listOptions = ListOptions.vaults st.filteredVaults ∧
     (goBackOneLayer st).allSecrets = st.allSecrets ∧
     (goBackOneLayer st).filteredSecrets = st.filteredSecrets ∧
     (goBackOneLayer st).commandVisible = false) ∧
    ((goBackOneLayer (goBackOneLayer st)).state = ViewState.moveSelectTarget ∧
     (goBackOneLayer (goBackOneLayer st)).atSecretDetail = false ∧
     (goBackOneLayer (goBackOneLayer st)).allSecrets = st.allSecrets ∧
     (goBackOneLayer (goBackOneLayer st)).filteredSecrets = st.filteredSecrets) ∧
    ((goBackOneLayer (goBackOneLayer (goBackOneLayer st))).state = ViewState.listSecrets ∧
     (goBackOneLayer (goBackOneLayer (goBackOneLayer st))).atSecretDetail = false) := by
  simp [goBackOneLayer, hm, hd, setListOptionsFromVaults, setListOptionsFromSecrets, focusList]

/-- C4, witness: the amended back-navigation theorem applied at the
concrete `moveNewName` state reached through the embedded handlers. -/
theorem c4_back_navigation_amended_witness :
    (moveNewNamePromptState.actionMode = ActionMode.moveNewName ∧
     moveNewNamePromptState.atSecretDetail = true) ∧
    (((goBackOneLayer moveNewNamePromptState).actionMode = ActionMode.moveTarget ∧
      (goBackOneLayer moveNewNamePromptState).state = ViewState.moveSelectTarget ∧
      (goBackOneLayer moveNewNamePromptState).listOptions =
        ListOptions.vaults moveNewNamePromptState.filteredVaults ∧
      (goBackOneLayer moveNewNamePromptState).allSecrets = moveNewNamePromptState.allSecrets ∧
      (goBackOneLayer moveNewNamePromptState).filteredSecrets =
        moveNewNamePromptState.filteredSecrets ∧
      (goBackOneLayer moveNewNamePromptState).commandVisible = false) ∧
     ((goBackOneLayer (goBackOneLayer moveNewNamePromptState)).state =
        ViewState.moveSelectTarget ∧
      (goBackOneLayer (goBackOneLayer moveNewNamePromptState)).atSecretDetail = false ∧
      (goBackOneLayer (goBackOneLayer moveNewNamePromptState)).allSecrets =
        moveNewNamePromptState.allSecrets ∧
      (goBackOneLayer (goBackOneLayer moveNewNamePromptState)).filteredSecrets =
        moveNewNamePromptState.filteredSecrets) ∧
     ((goBackOneLayer (goBackOneLayer (goBackOneLayer moveNewNamePromptState))).state =
        ViewState.listSecrets ∧
      (goBackOneLayer (goBackOneLayer (goBackOneLayer moveNewNamePromptState))).atSecretDetail =
        false)) :=
  ⟨⟨by decide, by decide⟩,
   c4_back_navigation_amended moveNewNamePromptState (by decide) (by decide)⟩

/-- C5.  A completed move of secret `sp` (current value `v` as read
through the cache) to target vault `tv` under non-empty trimmed new name:
the handler performs exactly one remote mutation, a set of the new name to
`v` on the target vault, and no delete effect whatsoever; applying the
performed effects to any store gives the target vault the new secret with
value `v` and leaves every store entry under the source secret name that
held `v` still holding `v` (non-destructive copy). -/
theorem c5_move_is_nondestructive_copy (o : SecretStoreOracle) (st : AppState)
    (sp : SecretProperties) (tv cv : VaultRef) (v : String) (cmd : String)
    (S : Store) (su : String)
    (hm : st.actionMode = ActionMode.moveNewName)
    (hs : st.actionSecret = some sp)
    (ht : st.moveTargetVault = some tv)
    (hcv : st.currentVault = some cv)
    (hne : jsTrim cmd ≠ "")
    (hv : (getSecretValue o st sp).1 = some v)
    (hok : o.setOk tv.vaultUri (jsTrim cmd) = true)
    (hsrc : S su sp.name = some v) :
    (commandBarEnter o st cmd).2.1 = [Effect.setSecret tv.vaultUri (jsTrim cmd) v] ∧
    (commandBarEnter o st cmd).2.2 = false ∧
    ((commandBarEnter o st cmd).2.1.all fun e => !isDeleteEffect e) = true ∧
    applyEffects S (commandBarEnter o st cmd).2.1 tv.vaultUri (jsTrim cmd) = some v ∧
    applyEffects S (commandBarEnter o st cmd).2.1 su sp.name = some v := by
  have hpres := (getSecretValue_preserves o st sp).1
  have hbeq : ((jsTrim cmd) == "") = false := by simp [hne]
  have heff : (commandBarEnter o st cmd).2 =
      ([Effect.setSecret tv.vaultUri (jsTrim cmd) v], false) := by
    simp [commandBarEnter, hm, hs, ht, moveNewNameBranch, hv, hbeq, hok, hpres, hcv]
  refine ⟨?_, ?_, ?_, ?_, ?_⟩
  · exact congrArg Prod.fst heff
  · exact congrArg Prod.snd heff
  · rw [show (commandBarEnter o st cmd).2.1 = [Effect.setSecret tv.vaultUri (jsTrim cmd) v]
        from congrArg Prod.fst heff]
    simp [isDeleteEffect]
  · rw [show (commandBarEnter o st cmd).2.1 = [Effect.setSecret tv.vaultUri (jsTrim cmd) v]
        from congrArg Prod.fst heff]
    simp [applyEffects, applyEffect]
  · rw [show (commandBarEnter o st cmd).2.1 = [Effect.setSecret tv.vaultUri (jsTrim cmd) v]
        from congrArg Prod.fst heff]
    simp only [applyEffects, List.foldl, applyEffect]
    by_cases hc : (su == tv.vaultUri && sp.name == jsTrim cmd) = true
    · simp [hc]
    · simp [hc, hsrc]

/-- C5, witness: the move theorem applied at the concrete move-prompt
state, moving `s` (cached value `v`) to vault bravo under the name `n2`,
against a store in which vault alpha holds `s` with value `v`. -/
theorem c5_move_is_nondestructive_copy_witness :
    (movePromptState.actionMode = ActionMode.moveNewName ∧
     movePromptState.actionSecret = some secretS ∧
     movePromptState.moveTargetVault = some vaultBravo ∧
     movePromptState.currentVault = some vaultAlpha ∧
     jsTrim "n2" ≠ "" ∧
     (getSecretValue oracleAB movePromptState secretS).1 = some "v" ∧
     oracleAB.setOk vaultBravo.vaultUri (jsTrim "n2") = true ∧
     (fun u n => if u == "https://alpha.vault" && n == "s" then some "v" else Option.none :
       Store) "https://alpha.vault" secretS.name = some "v") ∧
    ((commandBarEnter oracleAB movePromptState "n2").2.1 =
       [Effect.setSecret vaultBravo.vaultUri (jsTrim "n2") "v"] ∧
     (commandBarEnter oracleAB movePromptState "n2").2.2 = false ∧
     ((commandBarEnter oracleAB movePromptState "n2").2.1.all fun e => !isDeleteEffect e) = true ∧
     applyEffects
       (fun u n => if u == "https://alpha.vault" && n == "s" then some "v" else Option.none)
       (commandBarEnter oracleAB movePromptState "n2").2.1 vaultBravo.vaultUri (jsTrim "n2") =
       some "v" ∧
     applyEffects
       (fun u n => if u == "https://alpha.vault" && n == "s" then some "v" else Option.none)
       (commandBarEnter oracleAB movePromptState "n2").2.1 "https://alpha.vault" secretS.name =
       some "v") :=
  ⟨⟨by decide, by decide, by decide, by decide, by decide, by decide, by decide, by decide⟩,
   c5_move_is_nondestructive_copy oracleAB movePromptState secretS vaultBravo vaultAlpha
     "v" "n2" (fun u n => if u == "https://alpha.vault" && n == "s" then some "v" else Option.none)
     "https://alpha.vault" (by decide) (by decide) (by decide) (by decide) (by decide)
     (by decide) (by decide) (by decide)⟩

/-- C6.  Within one vault session (a client is present): the second
`getSecretValue` for a name returns the identical value as the first,
performs zero remote `getSecret` invocations, and leaves the state
exactly as the first call left it (so every later call behaves the same);
and when the name was uncached and the first remote fetch throws, the
first call returns `null` and stores `null` in the cache (`some
Option.none`, distinct from a cached empty string `some (some "")`). -/
theorem c6_cache_memoization (o : SecretStoreOracle) (st : AppState) (sp : SecretProperties)
    (uri : String) (h : st.secretClient = some uri) :
    ((getSecretValue o (getSecretValue o st sp).2.1 sp).1 = (getSecretValue o st sp).1 ∧
     (getSecretValue o (getSecretValue o st sp).2.1 sp).2.1 = (getSecretValue o st sp).2.1 ∧
     (getSecretValue o (getSecretValue o st sp).2.1 sp).2.2 = 0) ∧
    (cacheHas st.secretCache sp.name = false →
      o.getSecret uri sp.name = Except.error () →
      (getSecretValue o st sp).1 = Option.none ∧
      cacheGet ((getSecretValue o st sp).2.1).secretCache sp.name = some Option.none) := by
  by_cases hc : cacheHas st.secretCache sp.name = true
  · constructor
    · simp [getSecretValue, h, hc]
    · intro hfalse
      rw [hfalse] at hc
      exact absurd hc (by simp)
  · have hc' : cacheHas st.secretCache sp.name = false := by
      cases hx : cacheHas st.secretCache sp.name
      · rfl
      · exact absurd hx hc
    rcases hg : o.getSecret uri sp.name with e | val
    · constructor
      · simp [getSecretValue, h, hc', hg, cacheHas_cacheSet, cacheGet_cacheSet]
      · intro _ _
        simp [getSecretValue, h, hc', hg, cacheGet_cacheSet]
    · constructor
      · simp [getSecretValue, h, hc', hg, cacheHas_cacheSet, cacheGet_cacheSet]
      · intro _ hge
        exact absurd hge (by simp)

/-- C6, witness: the memoization theorem applied at a concrete state
inside vault alpha with an empty cache, asking for a secret the oracle
throws on, so that both the memoization part and the failed-fetch part
evaluate concretely. -/
theorem c6_cache_memoization_witness :
    ({ detailStateAlpha with secretCache := [] }.secretClient = some "https://alpha.vault") ∧
    (((getSecretValue oracleAB
         (getSecretValue oracleAB { detailStateAlpha with secretCache := [] }
           { name := "t" }).2.1 { name := "t" }).1 =
        (getSecretValue oracleAB { detailStateAlpha with secretCache := [] }
           { name := "t" }).1 ∧
      (getSecretValue oracleAB
         (getSecretValue oracleAB { detailStateAlpha with secretCache := [] }
           { name := "t" }).2.1 { name := "t" }).2.1 =
        (getSecretValue oracleAB { detailStateAlpha with secretCache := [] }
           { name := "t" }).2.1 ∧
      (getSecretValue oracleAB
         (getSecretValue oracleAB { detailStateAlpha with secretCache := [] }
           { name := "t" }).2.1 { name := "t" }).2.2 = 0) ∧
     (cacheHas ({ detailStateAlpha with secretCache := [] } : AppState).secretCache "t" = false →
       oracleAB.getSecret "https://alpha.vault" "t" = Except.error () →
       (getSecretValue oracleAB { detailStateAlpha with secretCache := [] }
          { name := "t" }).1 = Option.none ∧
       cacheGet ((getSecretValue oracleAB { detailStateAlpha with secretCache := [] }
          { name := "t" }).2.1).secretCache "t" = some Option.none)) :=
  ⟨by decide,
   c6_cache_memoization oracleAB { detailStateAlpha with secretCache := [] }
     { name := "t" } "https://alpha.vault" (by decide)⟩

/-- C7.  The list filter used by the Input handler is case-insensitive
substring containment on the display name (membership characterisation
below), it is idempotent (filtering an already-filtered list with the
same query changes nothing), the empty query is the identity, and running
the Input handler never mutates the underlying full collections
(`allVaults`, `allSecrets`). -/
theorem c7_filter_algebra (q : String) (S : List VaultRef) (T : List SecretProperties)
    (st : AppState) (val : String) :
    filterVaultsByQuery q (filterVaultsByQuery q S) = filterVaultsByQuery q S ∧
    filterSecretsByQuery q (filterSecretsByQuery q T) = filterSecretsByQuery q T ∧
    filterVaultsByQuery "" S = S ∧
    filterSecretsByQuery "" T = T ∧
    (∀ v, v ∈ filterVaultsByQuery q S ↔
       v ∈ S ∧ strIncludes (jsToLower v.name) (jsToLower q) = true) ∧
    (∀ s, s ∈ filterSecretsByQuery q T ↔
       s ∈ T ∧ strIncludes (jsToLower s.name) (jsToLower q) = true) ∧
    (filterInput st val).allVaults = st.allVaults ∧
    (filterInput st val).allSecrets = st.allSecrets := by
  refine ⟨?_, ?_, ?_, ?_, ?_, ?_, ?_, ?_⟩
  · simp [filterVaultsByQuery, List.filter_filter]
  · simp [filterSecretsByQuery, List.filter_filter]
  · exact List.filter_eq_self.mpr (fun v _ => by
      rw [show jsToLower "" = "" from rfl]; exact strIncludes_empty _)
  · exact List.filter_eq_self.mpr (fun s _ => by
      rw [show jsToLower "" = "" from rfl]; exact strIncludes_empty _)
  · intro v; simp [filterVaultsByQuery, List.mem_filter]
  · intro s; simp [filterSecretsByQuery, List.mem_filter]
  · cases hs : st.state <;>
      simp [filterInput, hs, setListOptionsFromVaults, setListOptionsFromSecrets]
  · cases hs : st.state <;>
      simp [filterInput, hs, setListOptionsFromVaults, setListOptionsFromSecrets]

/-- C9.  On every run of the filter Input handler — in each of the three
view states — the consuming list is repopulated and its selection index
is reset to 0.  The reset itself lives in the vendored list widget
(`setOptions`), modelled here from the spec. -/
theorem c9_filter_resets_selection (st : AppState) (val : String) :
    (filterInput st val).selectedIndex = 0 := by
  cases hs : st.state <;>
    simp [filterInput, hs, setListOptionsFromVaults, setListOptionsFromSecrets]

/-- A successful `setSecretValue` performed either no remote call (null
client) or exactly the one set that was requested. -/
lemma setSecretValue_ok_effects (o : SecretStoreOracle) (st : AppState) (n v : String)
    (st' : AppState) (effs : List Effect)
    (h : setSecretValue o st n v = Except.ok (st', effs)) :
    effs = [] ∨ ∃ u, effs = [Effect.setSecret u n v] := by
  unfold setSecretValue at h
  rcases hcl : st.secretClient with _ | uri
  · rw [hcl] at h
    simp at h
    exact Or.inl h.2
  · rw [hcl] at h
    by_cases hok : o.setOk uri n = true
    · simp [hok] at h
      exact Or.inr ⟨uri, h.2.symm⟩
    · simp [hok] at h

/-- The edit branch never schedules a process exit. -/
lemma noQuit_editValueBranch (o : SecretStoreOracle) (st : AppState)
    (sp : SecretProperties) (cmd : String) :
    ((editValueBranch o st sp cmd).2.1.all fun e => !isQuitEffect e) = true := by
  unfold editValueBranch
  rcases hsv : setSecretValue o st sp.name cmd with e | p
  · simp
  · rcases setSecretValue_ok_effects o st sp.name cmd p.1 p.2 (by rw [hsv]) with h | ⟨u, h⟩ <;>
      simp [h, isQuitEffect]

/-- The rename branch never schedules a process exit. -/
lemma noQuit_renameBranch (o : SecretStoreOracle) (st : AppState)
    (sp : SecretProperties) (cmd : String) :
    ((renameBranch o st sp cmd).2.1.all fun e => !isQuitEffect e) = true := by
  unfold renameBranch
  dsimp only
  repeat' split
  all_goals rfl

/-- The move-target branch never schedules a process exit. -/
lemma noQuit_moveTargetBranch (st : AppState) (sp : SecretProperties) (cmd : String) :
    ((moveTargetBranch st sp cmd).2.1.all fun e => !isQuitEffect e) = true := by
  unfold moveTargetBranch
  dsimp only
  repeat' split
  all_goals rfl

/-- The move new-name branch never schedules a process exit. -/
lemma noQuit_moveNewNameBranch (o : SecretStoreOracle) (st : AppState)
    (sp : SecretProperties) (tv : VaultRef) (cmd : String) :
    ((moveNewNameBranch o st sp tv cmd).2.1.all fun e => !isQuitEffect e) = true := by
  unfold moveNewNameBranch
  dsimp only
  repeat' split
  all_goals rfl

/-- The create-name branch never schedules a process exit. -/
lemma noQuit_createNameBranch (st : AppState) (cmd : String) :
    ((createNameBranch st cmd).2.1.all fun e => !isQuitEffect e) = true := by
  unfold createNameBranch
  dsimp only
  repeat' split
  all_goals rfl

/-- The create-value branch never schedules a process exit. -/
lemma noQuit_createValueBranch (o : SecretStoreOracle) (st : AppState)
    (nm : String) (cmd : String) :
    ((createValueBranch o st nm cmd).2.1.all fun e => !isQuitEffect e) = true := by
  unfold createValueBranch
  dsimp only
  repeat' split
  all_goals rfl

/-- C8, counterexample.  The claim states that submitting `q` while ANY
action mode is active is consumed as that mode's input and never quits.
At the state reached through the embedded handlers by: `m` in the detail
view, open the command bar, submit an unmatched target-vault name (which
clears the secret payload but leaves the vault list on screen), Tab twice,
select a vault from the list (action mode becomes `moveNewName` again) —
submitting `q` falls through the payload-guarded branch to the
bare-command branch and schedules the exit. -/
theorem c8_counterexample_quit_during_active_mode :
    quitTrapState.actionMode = ActionMode.moveNewName ∧
    (commandBarEnter oracleAB quitTrapState "q").2.1 = [Effect.quit 0] := by
  refine ⟨by decide, by decide⟩

/-- C8, amended.  Submitting trimmed `q` or `quit` with no active action
mode schedules the process exit with code 0 (and the mode stays `None`);
while an action mode is active with its required payload present (the
action secret, plus the target vault for `MoveNewName`, or the pending
name for `CreateValue`), the submission is consumed by that mode's branch
and never schedules an exit; any other text with no active mode performs
no effect and raises no error.  (When the payload has been cleared — as
after a failed move-target lookup — the text falls through to bare-command
handling, where `q` does quit.) -/
theorem c8_quit_semantics_amended :
    (∀ (o : SecretStoreOracle) (st : AppState) (cmd : String),
       st.actionMode = ActionMode.none →
       (jsTrim cmd = "q" ∨ jsTrim cmd = "quit") →
       (commandBarEnter o st cmd).2.1 = [Effect.quit 0] ∧
       (commandBarEnter o st cmd).2.2 = false ∧
       (commandBarEnter o st cmd).1.actionMode = ActionMode.none) ∧
    (∀ (o : SecretStoreOracle) (st : AppState) (cmd : String),
       actionPayloadPresent st = true →
       ((commandBarEnter o st cmd).2.1.all fun e => !isQuitEffect e) = true) ∧
    (∀ (o : SecretStoreOracle) (st : AppState) (cmd : String),
       st.actionMode = ActionMode.none →
       jsTrim cmd ≠ "q" → jsTrim cmd ≠ "quit" →
       (commandBarEnter o st cmd).2.1 = [] ∧
       (commandBarEnter o st cmd).2.2 = false) := by
  refine ⟨?_, ?_, ?_⟩
  · intro o st cmd hm hq
    have hcond : ((jsTrim cmd == "q") || (jsTrim cmd == "quit")) = true := by
      rcases hq with h | h <;> simp [h]
    simp only [commandBarEnter, hm, bareCommandBranch, hcond]
    refine ⟨by simp, by simp, ?_⟩
    have := (closeCommandBar_fields
      { st with actionMode := ActionMode.none, actionSecret := Option.none }).1
    simp [modeResetTail, this]
  · intro o st cmd hp
    rcases hmode : st.actionMode
    case none =>
      rw [actionPayloadPresent, hmode] at hp
      simp at hp
    case editValue =>
      rw [actionPayloadPresent, hmode] at hp
      obtain ⟨sp, hsp⟩ := Option.isSome_iff_exists.mp hp
      simp only [commandBarEnter, hmode, hsp]
      exact noQuit_editValueBranch o st sp cmd
    case rename =>
      rw [actionPayloadPresent, hmode] at hp
      obtain ⟨sp, hsp⟩ := Option.isSome_iff_exists.mp hp
      simp only [commandBarEnter, hmode, hsp]
      exact noQuit_renameBranch o st sp cmd
    case moveTarget =>
      rw [actionPayloadPresent, hmode] at hp
      obtain ⟨sp, hsp⟩ := Option.isSome_iff_exists.mp hp
      simp only [commandBarEnter, hmode, hsp]
      exact noQuit_moveTargetBranch st sp cmd
    case moveNewName =>
      rw [actionPayloadPresent, hmode] at hp
      rcases Bool.and_eq_true_iff.mp hp with ⟨hp1, hp2⟩
      obtain ⟨sp, hsp⟩ := Option.isSome_iff_exists.mp hp1
      obtain ⟨tv, htv⟩ := Option.isSome_iff_exists.mp hp2
      simp only [commandBarEnter, hmode, hsp, htv]
      exact noQuit_moveNewNameBranch o st sp tv cmd
    case createName =>
      simp only [commandBarEnter, hmode]
      exact noQuit_createNameBranch st cmd
    case createValue =>
      rw [actionPayloadPresent, hmode] at hp
      obtain ⟨nm, hnm⟩ := Option.isSome_iff_exists.mp hp
      simp only [commandBarEnter, hmode, hnm]
      exact noQuit_createValueBranch o st nm cmd
  · intro o st cmd hm h1 h2
    have hcond : ((jsTrim cmd == "q") || (jsTrim cmd == "quit")) = false := by
      simp [h1, h2]
    simp only [commandBarEnter, hm, bareCommandBranch, hcond]
    exact ⟨by simp, by simp⟩

/-- C8, witness: the amended quit-semantics theorem applied at concrete
inputs — `q` with no mode active quits with code 0; `q` while the edit
prompt is open (payload present) schedules no exit; `hello` with no mode
active performs nothing. -/
theorem c8_quit_semantics_amended_witness :
    (initState.actionMode = ActionMode.none ∧ jsTrim "q" = "q" ∧
     actionPayloadPresent editPromptState = true ∧
     jsTrim "hello" ≠ "q" ∧ jsTrim "hello" ≠ "quit") ∧
    ((commandBarEnter oracleAB initState "q").2.1 = [Effect.quit 0] ∧
     (commandBarEnter oracleAB initState "q").2.2 = false ∧
     (commandBarEnter oracleAB initState "q").1.actionMode = ActionMode.none) ∧
    ((commandBarEnter oracleAB editPromptState "q").2.1.all fun e => !isQuitEffect e) = true ∧
    ((commandBarEnter oracleAB initState "hello").2.1 = [] ∧
     (commandBarEnter oracleAB initState "hello").2.2 = false) :=
  ⟨⟨by decide, by decide, by decide, by decide, by decide⟩,
   c8_quit_semantics_amended.1 oracleAB initState "q" (by decide) (Or.inl (by decide)),
   c8_quit_semantics_amended.2.1 oracleAB editPromptState "q" (by decide),
   c8_quit_semantics_amended.2.2 oracleAB initState "hello" (by decide) (by decide) (by decide)⟩

/-- C10.  When the cache holds `null` for the source secret (its fetch
failed), submitting the rename or move new-name step does not abort: the
`?? ""` coercion turns the `null` into the empty string, and the branch
writes `""` as the renamed / copied secret's value — collapsing the
documented distinction between a failed fetch and an empty value. -/
theorem c10_null_value_coerced_to_empty_string :
    (∀ (o : SecretStoreOracle) (st : AppState) (sp : SecretProperties)
       (uri : String) (cv : VaultRef) (cmd : String),
       st.actionMode = ActionMode.rename →
       st.actionSecret = some sp →
       st.secretClient = some uri →
       st.currentVault = some cv →
       cacheGet st.secretCache sp.name = some Option.none →
       jsTrim cmd ≠ "" →
       jsTrim cmd ≠ sp.name →
       o.setOk uri (jsTrim cmd) = true →
       Effect.setSecret uri (jsTrim cmd) "" ∈ (commandBarEnter o st cmd).2.1 ∧
       (commandBarEnter o st cmd).2.2 = false) ∧
    (∀ (o : SecretStoreOracle) (st : AppState) (sp : SecretProperties)
       (uri : String) (tv cv : VaultRef) (cmd : String),
       st.actionMode = ActionMode.moveNewName →
       st.actionSecret = some sp →
       st.moveTargetVault = some tv →
       st.currentVault = some cv →
       st.secretClient = some uri →
       cacheGet st.secretCache sp.name = some Option.none →
       jsTrim cmd ≠ "" →
       o.setOk tv.vaultUri (jsTrim cmd) = true →
       (commandBarEnter o st cmd).2.1 = [Effect.setSecret tv.vaultUri (jsTrim cmd) ""] ∧
       (commandBarEnter o st cmd).2.2 = false) := by
  constructor
  · intro o st sp uri cv cmd hm hs hcl hcv hnull hne hneq hok
    have hget := getSecretValue_cached o st sp uri Option.none hcl hnull
    have heff : (commandBarEnter o st cmd).2 =
        (Effect.setSecret uri (jsTrim cmd) "" ::
          (if o.deleteOk uri sp.name = true then [Effect.beginDeleteSecret uri sp.name] else []),
         false) := by
      simp [commandBarEnter, hm, hs, renameBranch, hget, hne, hneq, hcl, hok, hcv]
    constructor
    · rw [show (commandBarEnter o st cmd).2.1 = Effect.setSecret uri (jsTrim cmd) "" ::
          (if o.deleteOk uri sp.name = true then [Effect.beginDeleteSecret uri sp.name] else [])
          from congrArg Prod.fst heff]
      exact List.mem_cons_self _ _
    · exact congrArg Prod.snd heff
  · intro o st sp uri tv cv cmd hm hs ht hcv hcl hnull hne hok
    have hget := getSecretValue_cached o st sp uri Option.none hcl hnull
    have hpres := (getSecretValue_preserves o st sp).1
    have hbeq : ((jsTrim cmd) == "") = false := by simp [hne]
    have heff : (commandBarEnter o st cmd).2 =
        ([Effect.setSecret tv.vaultUri (jsTrim cmd) ""], false) := by
      simp [commandBarEnter, hm, hs, ht, moveNewNameBranch, hget, hbeq, hok, hpres, hcv]
    exact ⟨congrArg Prod.fst heff, congrArg Prod.snd heff⟩

/-- C10, witness: the coercion theorem applied at the concrete rename and
move prompt states whose cache holds `null` for `s`. -/
theorem c10_null_value_coerced_to_empty_string_witness :
    (renamePromptStateNullCached.actionMode = ActionMode.rename ∧
     renamePromptStateNullCached.actionSecret = some secretS ∧
     renamePromptStateNullCached.secretClient = some "https://alpha.vault" ∧
     renamePromptStateNullCached.currentVault = some vaultAlpha ∧
     cacheGet renamePromptStateNullCached.secretCache secretS.name = some Option.none ∧
     jsTrim "s2" ≠ "" ∧ jsTrim "s2" ≠ secretS.name ∧
     oracleAB.setOk "https://alpha.vault" (jsTrim "s2") = true ∧
     movePromptStateNullCached.actionMode = ActionMode.moveNewName ∧
     movePromptStateNullCached.moveTargetVault = some vaultBravo ∧
     cacheGet movePromptStateNullCached.secretCache secretS.name = some Option.none ∧
     oracleAB.setOk vaultBravo.vaultUri (jsTrim "n2") = true) ∧
    (Effect.setSecret "https://alpha.vault" (jsTrim "s2") "" ∈
       (commandBarEnter oracleAB renamePromptStateNullCached "s2").2.1 ∧
     (commandBarEnter oracleAB renamePromptStateNullCached "s2").2.2 = false) ∧
    ((commandBarEnter oracleAB movePromptStateNullCached "n2").2.1 =
       [Effect.setSecret vaultBravo.vaultUri (jsTrim "n2") ""] ∧
     (commandBarEnter oracleAB movePromptStateNullCached "n2").2.2 = false) :=
  ⟨⟨by decide, by decide, by decide, by decide, by decide, by decide, by decide, by decide,
    by decide, by decide, by decide, by decide⟩,
   c10_null_value_coerced_to_empty_string.1 oracleAB renamePromptStateNullCached secretS
     "https://alpha.vault" vaultAlpha "s2" (by decide) (by decide) (by decide) (by decide)
     (by decide) (by decide) (by decide) (by decide),
   c10_null_value_coerced_to_empty_string.2 oracleAB movePromptStateNullCached secretS
     "https://alpha.vault" vaultBravo vaultAlpha "n2" (by decide) (by decide) (by decide)
     (by decide) (by decide) (by decide) (by decide) (by decide)⟩

end KV
